import Mathlib

/-!
Verification of the "Talking Practice" web application (English-learning
site built on Next.js, Firebase and OpenAI).  This file shallowly embeds
the algorithmic parts of the repository that the specification talks
about:

* the JSON-chunk extraction and accumulation of the streaming chat
  consumer in the `useChat` hook (`handleStreamingRequest`, `addMessage`,
  `abortRequest`);
* the silence-detection / auto-stop state machine of `MicButton`
  (`checkSilence`, `visualizeAudio`, the max-duration timer,
  `stopRecording`, `cancelRecording`);
* the Firestore data-access module (`saveUserSettings`,
  `getUserSettings`, `deleteUserData`, `saveTalkHistory`,
  `getUserTalkHistory`);
* the `/api/tts` POST route handler.

React component state is modelled as explicit state records threaded
through the functions; browser / SDK externals (fetch, `JSON.parse`,
`Number`, Firestore documents, MediaRecorder events, timers) are
modelled by explicit oracles or by executable Lean models of the
fragment of their behaviour that the embedded code exercises.
Timestamps are natural numbers of milliseconds, audio levels and JSON
numbers are rationals.
-/

/-! ## A model of JSON values and of the fragment of `JSON.parse`,
`Number` and string coercion that the embedded code uses. -/

/-- JSON values as produced by `JSON.parse`.  Numbers are modelled as
rationals (the source only ever forwards them). -/
inductive Json where
  | null : Json
  | bool (b : Bool) : Json
  | num (q : ℚ) : Json
  | str (s : String) : Json
  | arr (elems : List Json) : Json
  | obj (fields : List (String × Json)) : Json

/-- JavaScript truthiness of a JSON value (`undefined` is represented
by `Option.none` at use sites and is falsy there). -/
def jsTruthy : Json → Bool
  | Json.null => false
  | Json.bool b => b
  | Json.num q => q != 0
  | Json.str s => s != ""
  | Json.arr _ => true
  | Json.obj _ => true

/-- Property access `j.f` on a parsed JSON value: the last binding of
the field in an object (later duplicate keys win, as in `JSON.parse`),
`none` (i.e. `undefined`) otherwise. -/
def getField (j : Json) (name : String) : Option Json :=
  match j with
  | Json.obj fields => (fields.reverse.find? (fun kv => kv.1 = name)).map (·.2)
  | _ => none

/-- Display of a rational as used by string coercion of a JSON number.
Integers print exactly; non-integers are displayed as fractions (a
simplified model of JS number formatting, never exercised by the
concrete inputs in this file). -/
def ratDisplay (q : ℚ) : String :=
  if q.den = 1 then toString q.num else toString q.num ++ "/" ++ toString q.den

mutual

/-- JavaScript string coercion of a JSON value, as performed by
`accumulatedContent += content` when `content` is not a string. -/
def jsDisplay : Json → String
  | Json.null => "null"
  | Json.bool true => "true"
  | Json.bool false => "false"
  | Json.num q => ratDisplay q
  | Json.str s => s
  | Json.arr elems => jsDisplayList elems
  | Json.obj _ => "[object Object]"

/-- Comma-joined display of array elements (JS `Array.prototype.toString`). -/
def jsDisplayList : List Json → String
  | [] => ""
  | [x] => jsDisplay x
  | x :: y :: rest => jsDisplay x ++ "," ++ jsDisplayList (y :: rest)

end

/-- Whitespace recognised by the model of `String.prototype.trim` and
of the whitespace skipping in `JSON.parse`. -/
def isJsWhitespace (c : Char) : Bool :=
  c = ' ' || c = '\t' || c = '\n' || c = '\r' || c = '\x0b' || c = '\x0c'

/-- Model of JavaScript `String.prototype.trim` (over the ASCII
whitespace characters above). -/
def jsTrim (s : String) : String :=
  String.mk (((s.data.dropWhile isJsWhitespace).reverse.dropWhile isJsWhitespace).reverse)

/-- JSON whitespace. -/
def jsonWs (c : Char) : Bool :=
  c = ' ' || c = '\t' || c = '\n' || c = '\r'

/-- Skip JSON whitespace. -/
def skipJsonWs (cs : List Char) : List Char := cs.dropWhile jsonWs

/-- JSON string escape characters (the `\\uXXXX` form is not modelled;
inputs using it are rejected by the model parser). -/
def parseEscape (c : Char) : Option Char :=
  if c = '"' then some '"'
  else if c = '\\' then some '\\'
  else if c = '/' then some '/'
  else if c = 'n' then some '\n'
  else if c = 't' then some '\t'
  else if c = 'r' then some '\r'
  else if c = 'b' then some '\x08'
  else if c = 'f' then some '\x0c'
  else none

/-- Parse the body of a JSON string literal (after the opening quote),
returning the string and the rest of the input. -/
def parseJsonStringBody : List Char → Option (String × List Char)
  | [] => none
  | '"' :: rest => some ("", rest)
  | '\\' :: c :: rest => do
    let e ← parseEscape c
    let (s, r) ← parseJsonStringBody rest
    some (String.mk (e :: s.data), r)
  | c :: rest =>
    if c = '\\' then none
    else do
      let (s, r) ← parseJsonStringBody rest
      some (String.mk (c :: s.data), r)

/-- Numeric value of a decimal digit. -/
def digitVal (c : Char) : Option ℕ :=
  if '0' ≤ c ∧ c ≤ '9' then some (c.toNat - '0'.toNat) else none

/-- Take a maximal run of decimal digits. -/
def takeDigits : List Char → List ℕ × List Char
  | [] => ([], [])
  | c :: rest =>
    match digitVal c with
    | some d => let (ds, r) := takeDigits rest; (d :: ds, r)
    | none => ([], c :: rest)

/-- The natural number denoted by a list of digits. -/
def natOfDigits (ds : List ℕ) : ℕ := ds.foldl (fun a d => a * 10 + d) 0

/-- Parse a JSON number (optional minus sign, integer part, optional
fraction; exponents are not modelled). -/
def parseJsonNumber (cs : List Char) : Option (ℚ × List Char) :=
  let (neg, cs1) := match cs with
    | '-' :: r => (true, r)
    | _ => (false, cs)
  let (ds, cs2) := takeDigits cs1
  if ds = [] then none
  else
    let intPart : ℚ := (natOfDigits ds : ℚ)
    match cs2 with
    | '.' :: cs3 =>
      let (fs, cs4) := takeDigits cs3
      if fs = [] then none
      else
        let q := intPart + (natOfDigits fs : ℚ) / ((10 : ℚ) ^ fs.length)
        some (if neg then -q else q, cs4)
    | _ => some (if neg then -intPart else intPart, cs2)

mutual

/-- Fuel-indexed parser for a JSON value; models `JSON.parse` on the
grammar fragment above. -/
def parseJsonVal : ℕ → List Char → Option (Json × List Char)
  | 0, _ => none
  | fuel + 1, cs =>
    match skipJsonWs cs with
    | [] => none
    | 'n' :: 'u' :: 'l' :: 'l' :: r => some (Json.null, r)
    | 't' :: 'r' :: 'u' :: 'e' :: r => some (Json.bool true, r)
    | 'f' :: 'a' :: 'l' :: 's' :: 'e' :: r => some (Json.bool false, r)
    | '"' :: r => (parseJsonStringBody r).map (fun p => (Json.str p.1, p.2))
    | '[' :: r =>
      (match skipJsonWs r with
       | ']' :: r2 => some (Json.arr [], r2)
       | _ => (parseJsonElems fuel r).map (fun p => (Json.arr p.1, p.2)))
    | c :: r =>
      if c = '\x7b' then
        (match skipJsonWs r with
         | c2 :: r2 =>
           if c2 = '\x7d' then some (Json.obj [], r2)
           else (parseJsonFields fuel r).map (fun p => (Json.obj p.1, p.2))
         | [] => none)
      else (parseJsonNumber (c :: r)).map (fun p => (Json.num p.1, p.2))

/-- Parse the elements of a non-empty JSON array (after the opening
bracket). -/
def parseJsonElems : ℕ → List Char → Option (List Json × List Char)
  | 0, _ => none
  | fuel + 1, cs => do
    let (v, r) ← parseJsonVal fuel cs
    match skipJsonWs r with
    | ',' :: r2 => (parseJsonElems fuel r2).map (fun p => (v :: p.1, p.2))
    | ']' :: r2 => some ([v], r2)
    | _ => none

/-- Parse the fields of a non-empty JSON object (after the opening
brace). -/
def parseJsonFields : ℕ → List Char → Option (List (String × Json) × List Char)
  | 0, _ => none
  | fuel + 1, cs =>
    match skipJsonWs cs with
    | '"' :: r => do
      let (key, r1) ← parseJsonStringBody r
      match skipJsonWs r1 with
      | ':' :: r2 => do
        let (v, r3) ← parseJsonVal fuel r2
        (match skipJsonWs r3 with
         | ',' :: r4 => (parseJsonFields fuel r4).map (fun p => ((key, v) :: p.1, p.2))
         | c :: r4 =>
           if c = '\x7d' then some ([(key, v)], r4) else none
         | [] => none)
      | _ => none
    | _ => none

end

/-- Model of `JSON.parse`: parse a complete JSON document, requiring
only whitespace after the value; `none` models a thrown `SyntaxError`. -/
def jsonParse (s : String) : Option Json :=
  match parseJsonVal (s.data.length + 1) s.data with
  | some (v, rest) => if skipJsonWs rest = [] then some v else none
  | none => none

/-! ## The `useChat` hook (streaming chat response assembly)

`src/unnamed/part_001` defines `useChat`.  The hook state
(`messages`, `isLoading`, `error`) is threaded explicitly; `fetch` and
the stream reader are an oracle (`FetchOutcome`): each successful
`reader.read()` yields an already-UTF-8-decoded chunk, and a rejected
`fetch` or `read` carries the JavaScript error.  Invocations of the
`onError` / `onMessageResponse` callbacks and whether a request was
issued are recorded in a log.  The model covers the default
configuration of the hook: `streamingEnabled = true` and no configured
system message. -/

/-- `MessageRole` from `useChat`. -/
inductive MessageRole where
  | user : MessageRole
  | assistant : MessageRole
  | system : MessageRole
  deriving DecidableEq, Repr

/-- The `Message` record of `useChat`; `isLoading` and `error` are the
optional fields. -/
structure Message where
  id : String
  content : String
  role : MessageRole
  timestamp : ℕ
  isLoading : Option Bool
  error : Option String
  deriving DecidableEq, Repr

/-- A JavaScript `Error` value (all values thrown on the modelled
paths are `Error` instances). -/
structure JsError where
  name : String
  message : String
  deriving DecidableEq, Repr

/-- One `reader.read()` interaction: a decoded chunk, or a rejection
(an abort surfaces here as an error named `AbortError`). -/
inductive ReadEvent where
  | chunk (raw : String) : ReadEvent
  | failRead (e : JsError) : ReadEvent
  deriving DecidableEq, Repr

/-- Outcome of `fetch(apiEndpoint, ...)`: a rejection (network failure
or abort before the response) or a response with a status and an
optional body stream. -/
inductive FetchOutcome where
  | fail (e : JsError) : FetchOutcome
  | resp (status : ℕ) (body : Option (List ReadEvent)) : FetchOutcome
  deriving DecidableEq, Repr

/-- `response.ok`: status in the 200-299 range. -/
def respOk (status : ℕ) : Bool := 200 ≤ status && status ≤ 299

/-- The hook state of `useChat`. -/
structure ChatState where
  messages : List Message
  isLoading : Bool
  error : Option String
  deriving DecidableEq, Repr

/-- Record of the observable callback effects of one `addMessage` call. -/
structure CallLog where
  errors : List String
  responses : List Message
  requested : Bool
  deriving DecidableEq, Repr

/-- The empty call log. -/
def emptyLog : CallLog := ⟨[], [], false⟩

/-- `parsed.choices?.[0]?.delta?.content` (optional chaining; `none`
is `undefined`). -/
def deltaContentChain (j : Json) : Option Json := do
  let choices ← getField j "choices"
  let first ← match choices with
    | Json.arr (x :: _) => some x
    | _ => none
  let delta ← getField first "delta"
  getField delta "content"

/-- JavaScript `a || b`. -/
def jsOrElse (a b : Json) : Json := if jsTruthy a then a else b

/-- Content extracted from one decoded chunk, as the `useChat`
streaming loop computes it:
`content = parsed.content || parsed.choices?.[0]?.delta?.content || ''`
when the chunk parses as JSON, and the raw chunk text when `JSON.parse`
throws. -/
def extractContent (chunk : String) : String :=
  match jsonParse chunk with
  | some parsed =>
    let c1 := (getField parsed "content").getD Json.null
    let c2 := (deltaContentChain parsed).getD Json.null
    jsDisplay (jsOrElse c1 (jsOrElse c2 (Json.str "")))
  | none => chunk

/-- Chunk-content extraction as worded by the specification claim:
`parsed.content` if the chunk parses as JSON and has a `content`
field, else `parsed.choices[0].delta.content` if present, else the raw
decoded chunk text.  Stated only to compare against `extractContent`,
which is what the code computes. -/
def specExtractContent (chunk : String) : String :=
  match jsonParse chunk with
  | some parsed =>
    match getField parsed "content" with
    | some c => jsDisplay c
    | none =>
      match deltaContentChain parsed with
      | some c => jsDisplay c
      | none => chunk
  | none => chunk

/-- Concatenation, in arrival order, of the content extracted from
each chunk. -/
def joinExtract : List String → String
  | [] => ""
  | r :: rs => extractContent r ++ joinExtract rs

/-- Concatenation of the spec-worded per-chunk extraction. -/
def specJoinExtract : List String → String
  | [] => ""
  | r :: rs => specExtractContent r ++ specJoinExtract rs

/-- The per-chunk update `setMessages` performs: the assistant
placeholder gets the accumulated content and `isLoading: false`. -/
def streamUpdate (assistantId : String) (acc : String) (m : Message) : Message :=
  if m.id = assistantId then { m with content := acc, isLoading := some false } else m

/-- The `while (true) ... reader.read()` loop of
`handleStreamingRequest`: accumulate extracted content, update the
placeholder message after every chunk, exit with the accumulated
content (and the rejection, if the read rejected). -/
def streamLoop (assistantId : String) (acc : String) (msgs : List Message) :
    List ReadEvent → String × List Message × Option JsError
  | [] => (acc, msgs, none)
  | ReadEvent.chunk raw :: rest =>
    let acc2 := acc ++ extractContent raw
    streamLoop assistantId acc2 (msgs.map (streamUpdate assistantId acc2)) rest
  | ReadEvent.failRead e :: _ => (acc, msgs, some e)

/-- `handleStreamingRequest` from `useChat`: throws (third component)
on a rejected fetch, a non-ok status, or a null body; otherwise runs
the read loop; a rejection of the loop is rethrown unless it is an
`AbortError`, which the inner catch swallows; on normal completion
`onMessageResponse` receives the final message (second component). -/
def handleStreamingRequest (assistantId : String) (now : ℕ) (outcome : FetchOutcome)
    (msgs : List Message) : List Message × Option Message × Option JsError :=
  match outcome with
  | FetchOutcome.fail e => (msgs, none, some e)
  | FetchOutcome.resp status body =>
    if respOk status = false then
      (msgs, none, some ⟨"Error", "Server error: " ++ toString status⟩)
    else
      match body with
      | none => (msgs, none, some ⟨"Error", "Response body is null"⟩)
      | some events =>
        let res := streamLoop assistantId "" msgs events
        match res.2.2 with
        | none => (res.2.1, some ⟨assistantId, res.1, MessageRole.assistant, now, none, none⟩, none)
        | some e =>
          if e.name = "AbortError" then (res.2.1, none, none) else (res.2.1, none, some e)

/-- The error message computed by the catch block of `addMessage`: the
error's own message, overridden by the cancellation text when the
error is named `AbortError`. -/
def errorMessageFor (e : JsError) : String :=
  if e.name = "AbortError" then "Request was cancelled" else e.message

/-- The truncation `addMessage` applies when the stored list has
reached `maxMessagesToStore`: remove the element at index 1 when a
system message exists anywhere, else shift off the head. -/
def truncateForMax (maxStore : ℕ) (msgs : List Message) : List Message :=
  if maxStore ≤ msgs.length then
    if msgs.any (fun m => m.role = MessageRole.system) then msgs.eraseIdx 1 else msgs.drop 1
  else msgs

/-- `addMessage` from `useChat` (streaming path, empty system
message).  `userMsgId` and `assistantId` are the two ids produced by
`generateId`; `now` is `Date.now()`; `outcome` is the fetch oracle.
Returns the final hook state and the callback log. -/
def addMessage (maxStore : ℕ) (content : String) (role : MessageRole)
    (userMsgId assistantId : String) (now : ℕ) (outcome : FetchOutcome)
    (st : ChatState) : ChatState × CallLog :=
  if jsTrim content = "" then (st, emptyLog)
  else
    let newMessage : Message := ⟨userMsgId, content, role, now, none, none⟩
    let msgs1 := truncateForMax maxStore st.messages ++ [newMessage]
    match role with
    | MessageRole.user =>
      let placeholder : Message := ⟨assistantId, "", MessageRole.assistant, now, some true, none⟩
      let msgs2 := msgs1 ++ [placeholder]
      let res := handleStreamingRequest assistantId now outcome msgs2
      match res.2.2 with
      | none =>
        ({ messages := res.1, isLoading := false, error := none },
         { errors := [], responses := res.2.1.toList, requested := true })
      | some e =>
        let msg := errorMessageFor e
        ({ messages := res.1.map (fun m =>
              if m.id = assistantId then { m with error := some msg, isLoading := some false } else m),
           isLoading := false, error := some msg },
         { errors := [msg], responses := res.2.1.toList, requested := true })
    | _ => ({ st with messages := msgs1 }, emptyLog)

/-! ## `MicButton` (`src/unnamed/part_000`)

Silence-based auto-stop: `visualizeAudio` samples a normalized audio
level once per animation frame and feeds it to `checkSilence`, which
compares it against the two fixed thresholds and arms / clears the
`setTimeout` that auto-stops the recording.  The component refs and
state are a record; a pending `setTimeout` is represented by the
absolute time at which it would fire (`deadline`); the timer callback
stopping the recorder is a `timerFire` event.  Times are integer
milliseconds, levels are rationals (the normalized 0..1 level). -/

/-- `SILENCE_THRESHOLD` (0.05) from `checkSilence`. -/
def SILENCE_THRESHOLD : ℚ := mkRat 5 100

/-- `MIN_SPEECH_LEVEL` (0.1) from `checkSilence`. -/
def MIN_SPEECH_LEVEL : ℚ := mkRat 1 10

/-- The mutable state that `checkSilence` reads and writes:
`hasSpeechStarted`, `lastAudioLevelRef`, the pending auto-stop timeout
(as its firing time) and whether the recording has been stopped. -/
structure SilState where
  hasSpeechStarted : Bool
  lastAudioLevel : ℚ
  deadline : Option ℤ
  stopped : Bool
  deriving DecidableEq, Repr

/-- Initial state at `startRecording`. -/
def silInit : SilState :=
  { hasSpeechStarted := false, lastAudioLevel := 0, deadline := none, stopped := false }

/-- `checkSilence(audioLevel)` called at time `t` with the silence
duration `d` (`autoStopSilence`).  The guard at line 216 reads the
pre-call value of `hasSpeechStarted` (a JavaScript local), while
`lastAudioLevelRef` is a ref and sees the update made by the
speech-start branch. -/
def checkSilence (d t : ℤ) (lvl : ℚ) (s : SilState) : SilState :=
  let s1 :=
    if MIN_SPEECH_LEVEL < lvl then
      { s with hasSpeechStarted := true, lastAudioLevel := lvl, deadline := none }
    else s
  let s2 :=
    if s.hasSpeechStarted then
      if lvl < SILENCE_THRESHOLD ∧ SILENCE_THRESHOLD < s1.lastAudioLevel then
        if s1.deadline = none then { s1 with deadline := some (t + d) } else s1
      else if SILENCE_THRESHOLD ≤ lvl ∧ s1.deadline ≠ none then
        { s1 with deadline := none }
      else s1
    else s1
  { s2 with lastAudioLevel := lvl }

/-- Events of a recording session, ordered by time: an animation-frame
sample of the normalized level, or the firing of the armed auto-stop
timeout. -/
inductive SilEvent where
  | sample (t : ℤ) (lvl : ℚ) : SilEvent
  | timerFire (t : ℤ) : SilEvent
  deriving DecidableEq, Repr

/-- The time of an event. -/
def evTime : SilEvent → ℤ
  | SilEvent.sample t _ => t
  | SilEvent.timerFire t => t

/-- One event step: samples run `checkSilence` while the recording is
live (the animation loop is cancelled once the recorder stops); a
timer firing stops the recording exactly when it is the armed,
uncancelled timeout (`clearTimeout` discards any other), and the
callback itself re-checks `isRecording`. -/
def silStep (d : ℤ) (s : SilState) : SilEvent → SilState
  | SilEvent.sample t lvl => if s.stopped then s else checkSilence d t lvl s
  | SilEvent.timerFire t =>
    if s.deadline = some t ∧ s.stopped = false then
      { s with stopped := true, deadline := none }
    else s

/-- Run a recording session from the initial state. -/
def runSil (d : ℤ) (es : List SilEvent) : SilState :=
  es.foldl (silStep d) silInit

/-- Event times are strictly increasing along a trace. -/
def timesIncreasing : List SilEvent → Bool
  | [] => true
  | [_] => true
  | a :: b :: rest => (decide (evTime a < evTime b)) && timesIncreasing (b :: rest)

/-- Some sample of the trace exceeded the speech-start threshold. -/
def SpokeBefore (es : List SilEvent) : Prop :=
  ∃ (t : ℤ) (lvl : ℚ), SilEvent.sample t lvl ∈ es ∧ MIN_SPEECH_LEVEL < lvl

/-- Every sample of the trace falling in the window of length `d`
ending at `t0` is below the silence threshold. -/
def QuietWindow (d t0 : ℤ) (es : List SilEvent) : Prop :=
  ∀ (t : ℤ) (lvl : ℚ), SilEvent.sample t lvl ∈ es → t0 - d ≤ t → t < t0 →
    lvl < SILENCE_THRESHOLD

/-- Invariant of the silence state machine relating a reachable state
to the trace that produced it. -/
def SilInv (d : ℤ) (es : List SilEvent) (s : SilState) : Prop :=
  (s.hasSpeechStarted = true → SpokeBefore es) ∧
  (∀ t0, s.deadline = some t0 → s.hasSpeechStarted = true ∧ QuietWindow d t0 es) ∧
  (s.stopped = true → SpokeBefore es ∧
    ∃ t0, SilEvent.timerFire t0 ∈ es ∧ QuietWindow d t0 es) ∧
  (s.stopped = true → s.deadline = none)

/-! ### The max-duration timer of `startRecording`

`setInterval(..., 1000)` computes `seconds = Math.floor((Date.now() -
startTime) / 1000)`, stores it in `recordingDuration` and calls
`stopRecording` once `seconds >= maxDuration`.  The interval is
modelled by its ideal schedule: tick `k` occurs `1000 * (k + 1)`
milliseconds after `startTime`, and ticks after the recorder has
stopped do nothing (the `onstop` handler clears the interval). -/

/-- Timer-visible component state. -/
structure TimerState where
  recordingDuration : ℕ
  stopped : Bool
  deriving DecidableEq, Repr

/-- One interval tick, given the elapsed milliseconds. -/
def timerTick (maxDuration : ℕ) (s : TimerState) (elapsedMs : ℕ) : TimerState :=
  if s.stopped then s
  else
    let seconds := elapsedMs / 1000
    let s1 := { s with recordingDuration := seconds }
    if maxDuration ≤ seconds then { s1 with stopped := true } else s1

/-- The ideal `setInterval(..., 1000)` schedule: `n` ticks at elapsed
times 1000, 2000, ..., `1000 * n` milliseconds. -/
def nominalTicks (n : ℕ) : List ℕ :=
  (List.range n).map (fun k => 1000 * (k + 1))

/-- Run the recording timer over a tick schedule. -/
def runTimer (maxDuration : ℕ) (ticks : List ℕ) : TimerState :=
  ticks.foldl (timerTick maxDuration) ⟨0, false⟩

/-! ### `stopRecording` / `cancelRecording`

`mediaRecorderRef.current.stop()` makes the `MediaRecorder` fire its
`onstop` handler (on a later event-loop turn), which assembles the
accumulated chunks into a `Blob` of type `audio/wav` and invokes
`onRecordingComplete`.  `cancelRecording` calls `stop()` and then
`onRecordingCancel` synchronously, so the cancel callback is observed
before the completion callback.  Chunk payloads are abstract (ℕ). -/

/-- An assembled audio blob: the chunk payloads and the MIME type. -/
structure Blob where
  parts : List ℕ
  mime : String
  deriving DecidableEq, Repr

/-- Recorder-visible component state. -/
structure RecState where
  isRecording : Bool
  hasRecorder : Bool
  chunks : List ℕ
  deriving DecidableEq, Repr

/-- Observable callback invocations of the recorder. -/
inductive RecCallback where
  | complete (b : Blob) : RecCallback
  | cancel : RecCallback
  deriving DecidableEq, Repr

/-- State after the `onstop` handler has run. -/
def afterOnStop (s : RecState) : RecState :=
  { s with isRecording := false }

/-- `stopRecording`: no-op unless recording with a live recorder;
otherwise `stop()` is called and `onstop` delivers the blob. -/
def stopRecording (s : RecState) : RecState × List RecCallback :=
  if s.isRecording = false ∨ s.hasRecorder = false then (s, [])
  else (afterOnStop s, [RecCallback.complete ⟨s.chunks, "audio/wav"⟩])

/-- `cancelRecording`: same guard; `stop()` is called (its `onstop`
handler is not suppressed) and `onRecordingCancel` runs synchronously,
before the queued `onstop` event. -/
def cancelRecording (s : RecState) : RecState × List RecCallback :=
  if s.isRecording = false ∨ s.hasRecorder = false then (s, [])
  else (afterOnStop s, [RecCallback.cancel, RecCallback.complete ⟨s.chunks, "audio/wav"⟩])

/-! ## The Firestore module (`src/src/firebase/firestore.ts`)

The two collections the module touches are association lists from
document id to document data; `Timestamp` is a natural number.
`setDoc` overwrites the document with the given id (or creates it),
`deleteDoc` removes it, `getDocs` of the `userId` query filters on the
stored field.  `doc(collection(db, ...))` generates a fresh random id;
freshness is a hypothesis of the theorems that use it. -/

/-- The `theme` union type of `UserSettings`. -/
inductive Theme where
  | light : Theme
  | dark : Theme
  | system : Theme
  deriving DecidableEq, Repr

/-- A stored `users/{uid}` document (`UserSettings`): all fields but
`updatedAt` are optional. -/
structure StoredUserSettings where
  language : Option String
  languageLevel : Option String
  voice : Option String
  theme : Option Theme
  createdAt : Option ℕ
  updatedAt : ℕ
  deriving DecidableEq, Repr

/-- A `Partial<UserSettings>` argument: every field optional; a
`none` field is absent from the object (and is not spread). -/
structure SettingsPatch where
  language : Option String
  languageLevel : Option String
  voice : Option String
  theme : Option Theme
  createdAt : Option ℕ
  updatedAt : Option ℕ
  deriving DecidableEq, Repr

/-- The all-absent patch. -/
def emptyPatch : SettingsPatch := ⟨none, none, none, none, none, none⟩

/-- Message embedded in a talk history document. -/
structure TalkMessage where
  role : MessageRole
  content : String
  timestamp : ℕ
  deriving DecidableEq, Repr

/-- A stored `talk_history` document (`TalkHistoryItem`). -/
structure TalkHistoryItem where
  id : String
  userId : String
  date : ℕ
  duration : ℚ
  topics : List String
  score : ℚ
  messages : List TalkMessage
  language : String
  languageLevel : String
  deriving DecidableEq, Repr

/-- `Omit<TalkHistoryItem, 'id'>`: the argument of `saveTalkHistory`. -/
structure TalkHistoryData where
  userId : String
  date : ℕ
  duration : ℚ
  topics : List String
  score : ℚ
  messages : List TalkMessage
  language : String
  languageLevel : String
  deriving DecidableEq, Repr

/-- `{...historyItem, id}`. -/
def withId (item : TalkHistoryData) (id : String) : TalkHistoryItem :=
  ⟨id, item.userId, item.date, item.duration, item.topics, item.score,
   item.messages, item.language, item.languageLevel⟩

/-- The Firestore state seen by this module. -/
structure FirestoreDb where
  users : List (String × StoredUserSettings)
  talkHistory : List (String × TalkHistoryItem)
  deriving DecidableEq, Repr

/-- `getDoc`: the first document with the given id. -/
def lookupDoc (docs : List (String × α)) (id : String) : Option α :=
  (docs.find? (fun kv => kv.1 = id)).map (·.2)

/-- `setDoc`: overwrite the document with the given id, or append a
new one. -/
def setDocIn (docs : List (String × α)) (id : String) (v : α) : List (String × α) :=
  match docs with
  | [] => [(id, v)]
  | kv :: rest => if kv.1 = id then (id, v) :: rest else kv :: setDocIn rest id v

/-- `deleteDoc`: remove the document with the given id. -/
def deleteDocIn (docs : List (String × α)) (id : String) : List (String × α) :=
  docs.filter (fun kv => kv.1 ≠ id)

/-- Spread-merge of one field: a present patch field overrides. -/
def mergeField (pv old : Option α) : Option α :=
  match pv with
  | some v => some v
  | none => old

/-- `saveUserSettings(user, settings)` at time `now`
(`Timestamp.now()`): reads the existing document, spreads it under the
patch, forces `updatedAt := now` (listed after the spreads) and sets
`createdAt := now` when the document did not exist, then `setDoc`s the
result. -/
def saveUserSettings (uid : String) (p : SettingsPatch) (now : ℕ)
    (db : FirestoreDb) : FirestoreDb :=
  let userDoc := lookupDoc db.users uid
  let merged : StoredUserSettings :=
    { language := mergeField p.language (userDoc.bind (·.language))
      languageLevel := mergeField p.languageLevel (userDoc.bind (·.languageLevel))
      voice := mergeField p.voice (userDoc.bind (·.voice))
      theme := mergeField p.theme (userDoc.bind (·.theme))
      createdAt := mergeField p.createdAt (userDoc.bind (·.createdAt))
      updatedAt := now }
  let merged2 := match userDoc with
    | none => { merged with createdAt := some now }
    | some _ => merged
  { db with users := setDocIn db.users uid merged2 }

/-- `getUserSettings(user)`. -/
def getUserSettings (uid : String) (db : FirestoreDb) : Option StoredUserSettings :=
  lookupDoc db.users uid

/-- `deleteUserData(user)`: delete the settings document, then query
the user's talk history and issue one `deleteDoc` per matching
document via `Promise.all`.  `fails id = true` means the delete of
document `id` rejects; a rejected delete leaves its document in place,
completed deletes are kept (Firestore has per-document atomicity and
no transaction here).  Returns the new state, the overall success flag
(`Promise.all` rejects iff some delete rejected) and the ids of the
issued deletes. -/
def deleteUserData (uid : String) (fails : String → Bool)
    (db : FirestoreDb) : FirestoreDb × Bool × List String :=
  let db1 : FirestoreDb := { db with users := deleteDocIn db.users uid }
  let targets := db1.talkHistory.filter (fun kv => kv.2.userId = uid)
  let remaining := db1.talkHistory.filter (fun kv => ¬(kv.2.userId = uid ∧ fails kv.1 = false))
  ({ db1 with talkHistory := remaining },
   targets.all (fun kv => fails kv.1 = false),
   targets.map (·.1))

/-- `saveTalkHistory(historyItem)`: `doc(collection(db,
'talk_history'))` yields the fresh id `freshId`; the item is stored
with the `id` field added, and the id is returned. -/
def saveTalkHistory (freshId : String) (item : TalkHistoryData)
    (db : FirestoreDb) : FirestoreDb × String :=
  ({ db with talkHistory := setDocIn db.talkHistory freshId (withId item freshId) }, freshId)

/-- `getUserTalkHistory(userId)`: the user's documents, ordered by
date descending. -/
def getUserTalkHistory (uid : String) (db : FirestoreDb) : List TalkHistoryItem :=
  ((db.talkHistory.filter (fun kv => kv.2.userId = uid)).map (·.2)).mergeSort
    (fun a b => b.date ≤ a.date)

/-- The operations exported by the firestore module, with their oracle
inputs (timestamps, fresh ids, delete outcomes). -/
inductive FsOp where
  | saveSettings (uid : String) (p : SettingsPatch) (now : ℕ) : FsOp
  | getSettings (uid : String) : FsOp
  | deleteUser (uid : String) (fails : String → Bool) : FsOp
  | saveTalk (freshId : String) (item : TalkHistoryData) : FsOp
  | getTalkHistory (uid : String) : FsOp

/-- The state transition of each module operation (reads leave the
state unchanged). -/
def applyOp (db : FirestoreDb) : FsOp → FirestoreDb
  | FsOp.saveSettings uid p now => saveUserSettings uid p now db
  | FsOp.getSettings _ => db
  | FsOp.deleteUser uid fails => (deleteUserData uid fails db).1
  | FsOp.saveTalk freshId item => (saveTalkHistory freshId item db).1
  | FsOp.getTalkHistory _ => db

/-- Well-formedness of an operation's oracle inputs against the
current state: ids produced by `doc(collection(db))` are fresh. -/
def WfOp (db : FirestoreDb) : FsOp → Prop
  | FsOp.saveTalk freshId _ => freshId ∉ db.talkHistory.map Prod.fst
  | _ => True

/-! ## The `/api/tts` POST handler (`src/src/app/api/tts/route.ts`)

The request body is the result of `request.json()` (`Except.error`
models a parse rejection); the OpenAI TTS call plus
`response.arrayBuffer()` is an oracle returning the audio byte length
or a thrown error carrying an optional HTTP status.  The handler's
`try`/`catch` turns every thrown error into a JSON error response, so
the model is a total function to a response; the boolean records
whether the OpenAI API was called. -/

/-- A thrown error in the route (`ApiError`): message and optional
`status`. -/
structure ApiError where
  message : String
  status : Option ℕ
  deriving DecidableEq, Repr

/-- A response produced by the handler: a JSON error body with a
status, or the audio payload (status 200). -/
inductive TtsResponse where
  | jsonErr (status : ℕ) (errText : String) : TtsResponse
  | audio (byteLength : ℕ) : TtsResponse
  deriving DecidableEq, Repr

/-- The HTTP status of a response. -/
def statusOf : TtsResponse → ℕ
  | TtsResponse.jsonErr s _ => s
  | TtsResponse.audio _ => 200

/-- `apiError.status || 500` (a zero status is falsy). -/
def statusOr500 (e : ApiError) : ℕ :=
  match e.status with
  | some s => if s = 0 then 500 else s
  | none => 500

/-- Truthiness of `process.env.NEXT_PUBLIC_OPENAI_API_KEY`. -/
def keyTruthy : Option String → Bool
  | none => false
  | some s => s != ""

/-- The `validVoices` list. -/
def validVoices : List String := ["alloy", "echo", "fable", "onyx", "nova", "shimmer"]

/-- Whether the destructured `voice` value passes
`validVoices.includes(voice)` (only a string can equal a string). -/
def voiceOk : Json → Bool
  | Json.str s => validVoices.contains s
  | _ => false

/-- Whether a JSON value is `null` (destructuring `null` throws). -/
def jsIsNull : Json → Bool
  | Json.null => true
  | _ => false

/-- Model of JavaScript `Number()` coercion of a string: trimmed empty
string is 0, otherwise an optionally signed decimal literal; `none` is
`NaN`. -/
def jsStringToNumber (s : String) : Option ℚ :=
  let t := jsTrim s
  if t = "" then some 0
  else
    let (neg, cs) := match t.data with
      | '-' :: r => (some true, r)
      | '+' :: r => (some false, r)
      | cs => (none, cs)
    let (ds, cs2) := takeDigits cs
    if ds = [] then none
    else
      let intPart : ℚ := (natOfDigits ds : ℚ)
      let signed := fun (q : ℚ) => if neg = some true then -q else q
      match cs2 with
      | [] => some (signed intPart)
      | '.' :: cs3 =>
        let (fs, cs4) := takeDigits cs3
        if cs4 = [] then
          some (signed (intPart + (natOfDigits fs : ℚ) / ((10 : ℚ) ^ fs.length)))
        else none
      | _ => none

/-- Model of JavaScript `Number()` on the JSON values reachable here:
numbers are themselves, strings parse as above, booleans and `null`
coerce through their primitive values, a singleton array coerces to
its element, everything else is `NaN` (`none`). -/
def jsNumber : Json → Option ℚ
  | Json.num q => some q
  | Json.str s => jsStringToNumber s
  | Json.bool b => some (if b then 1 else 0)
  | Json.null => some 0
  | Json.arr [] => some 0
  | Json.arr [x] => jsNumber x
  | Json.arr _ => none
  | Json.obj _ => none

/-- The `text` value destructured from the body (`undefined` is
falsy, so an absent field behaves as `Json.null` under `!text`). -/
def ttsText (j : Json) : Json := (getField j "text").getD Json.null

/-- The `voice` value with its destructuring default `'alloy'`. -/
def ttsVoice (j : Json) : Json := (getField j "voice").getD (Json.str "alloy")

/-- The `speed` value with its destructuring default `1.0`. -/
def ttsSpeed (j : Json) : Json := (getField j "speed").getD (Json.num 1)

/-- Whether `speed` fails to parse to a number in the closed interval
[0.25, 4.0] (shared by the code's validation and the claim's
wording). -/
def ttsSpeedBad (j : Json) : Bool :=
  match jsNumber (ttsSpeed j) with
  | none => true
  | some q => decide (q < mkRat 1 4) || decide (4 < q)

/-- Whether the body fails the handler's input validation (the exact
conditions of the three 400 branches). -/
def ttsInvalidInput (j : Json) : Bool :=
  !(jsTruthy (ttsText j)) || !(voiceOk (ttsVoice j)) || ttsSpeedBad j

/-- The input-validation conditions as the specification claim words
them: `text` absent, `voice` not one of the six names, or `speed` not
parsing to a number in [0.25, 4.0].  Stated only to compare with the
code's `ttsInvalidInput` (which uses JS truthiness of `text` instead
of absence). -/
def specTtsBadInput (j : Json) : Prop :=
  (getField j "text").isNone = true ∨ voiceOk (ttsVoice j) = false ∨
    ttsSpeedBad j = true

/-- The `/api/tts` POST handler.  Returns the response and whether
the OpenAI TTS endpoint was invoked. -/
def ttsPOST (apiKey : Option String) (body : Except Unit Json)
    (oracle : Except ApiError ℕ) : TtsResponse × Bool :=
  if keyTruthy apiKey = false then
    (TtsResponse.jsonErr 500 "OpenAI API key is not configured", false)
  else
    match body with
    | Except.error _ => (TtsResponse.jsonErr 500 "Failed to generate speech", false)
    | Except.ok j =>
      if jsIsNull j then (TtsResponse.jsonErr 500 "Failed to generate speech", false)
      else if jsTruthy (ttsText j) = false then
        (TtsResponse.jsonErr 400 "Text is required", false)
      else if voiceOk (ttsVoice j) = false then
        (TtsResponse.jsonErr 400 "Invalid voice option", false)
      else
        match jsNumber (ttsSpeed j) with
        | none => (TtsResponse.jsonErr 400 "Speed must be between 0.25 and 4.0", false)
        | some q =>
          if q < mkRat 1 4 ∨ 4 < q then
            (TtsResponse.jsonErr 400 "Speed must be between 0.25 and 4.0", false)
          else
            match oracle with
            | Except.error e =>
              (TtsResponse.jsonErr (statusOr500 e) "Failed to generate speech", true)
            | Except.ok n => (TtsResponse.audio n, true)

/-! ## Concrete inputs used by witnesses and counterexamples -/

/-- An empty chat state. -/
def chatState0 : ChatState := ⟨[], false, none⟩

/-- The `AbortError` produced by aborting a fetch / body read. -/
def abortErrorJs : JsError := ⟨"AbortError", "The operation was aborted."⟩

/-- `addMessage` run against a successful response whose single chunk
is the JSON text consisting of an opening and a closing brace (an
empty object). -/
def c1CounterRun : ChatState × CallLog :=
  addMessage 100 "hi" MessageRole.user "u1" "a1" 0
    (FetchOutcome.resp 200 (some [ReadEvent.chunk "\x7b\x7d"])) chatState0

/-- `addMessage` run against a request whose body read is interrupted
by an abort. -/
def c7CounterRun : ChatState × CallLog :=
  addMessage 100 "hi" MessageRole.user "u1" "a1" 0
    (FetchOutcome.resp 200 (some [ReadEvent.failRead abortErrorJs])) chatState0

/-- A recording trace: speech at level 0.2, a quiet sample at level
0.01 arming the timeout, and the timeout firing 2000 ms later. -/
def demoSilTrace : List SilEvent :=
  [SilEvent.sample 0 (mkRat 2 10), SilEvent.sample 100 (mkRat 1 100),
   SilEvent.timerFire 2100]

/-- A stored settings document. -/
def demoSettings : StoredUserSettings := ⟨some "en", none, none, none, some 5, 10⟩

/-- A talk-history payload. -/
def demoTalk : TalkHistoryData := ⟨"u1", 3, 30, ["travel"], 80, [], "en", "beginner"⟩

/-- A small Firestore state. -/
def demoDb : FirestoreDb := ⟨[("u1", demoSettings)], [("h1", withId demoTalk "h1")]⟩

/-- A patch that explicitly carries a `createdAt` value. -/
def c8Patch : SettingsPatch := { emptyPatch with createdAt := some 99 }

/-- A request body whose `text` field is present but empty. -/
def c6Body : Json := Json.obj [("text", Json.str "")]

/-! ## Theorems -/

/-- Trimming a string of whitespace yields the empty string. -/
theorem jsTrim_of_all_ws (s : String) (h : ∀ c ∈ s.data, isJsWhitespace c = true) :
    jsTrim s = "" := by
  unfold jsTrim
  have h1 : s.data.dropWhile isJsWhitespace = [] := by
    rw [List.dropWhile_eq_nil_iff]; exact fun x hx => h x hx
  rw [h1]
  rfl

/-- Claim C9: calling `addMessage` in `useChat` with content that is
empty or consists only of whitespace is a no-op — the message list,
`isLoading`, and error state are left unchanged, no callbacks fire and
no request is issued, for every prior hook state. -/
theorem addMessage_whitespace_noop (maxStore : ℕ) (content : String) (role : MessageRole)
    (uId aId : String) (now : ℕ) (outcome : FetchOutcome) (st : ChatState)
    (hws : ∀ c ∈ content.data, isJsWhitespace c = true) :
    addMessage maxStore content role uId aId now outcome st = (st, emptyLog) := by
  unfold addMessage
  rw [jsTrim_of_all_ws content hws]
  simp

/-- Witness for C9: the whitespace guard at a concrete input. -/
theorem addMessage_whitespace_noop_witness :
    addMessage 100 "  " MessageRole.user "u" "a" 5
      (FetchOutcome.resp 200 (some [])) chatState0 = (chatState0, emptyLog) :=
  addMessage_whitespace_noop 100 "  " MessageRole.user "u" "a" 5
    (FetchOutcome.resp 200 (some [])) chatState0 (by decide)

/-- Claim C10: `cancelRecording` stops the `MediaRecorder` without
suppressing its `onstop` handler, so `onRecordingComplete` still
receives the accumulated audio blob in addition to the
`onRecordingCancel` callback, and the resulting state and completion
delivery coincide with those of a normal `stopRecording`. -/
theorem cancelRecording_still_delivers (s : RecState)
    (hrec : s.isRecording = true) (hmr : s.hasRecorder = true) :
    cancelRecording s = ((stopRecording s).1, RecCallback.cancel :: (stopRecording s).2) ∧
    RecCallback.complete ⟨s.chunks, "audio/wav"⟩ ∈ (cancelRecording s).2 := by
  unfold cancelRecording stopRecording
  simp [hrec, hmr]

/-- Witness for C10 at a concrete recording state. -/
theorem cancelRecording_still_delivers_witness :
    cancelRecording ⟨true, true, [7, 8]⟩ =
      ((stopRecording ⟨true, true, [7, 8]⟩).1,
        RecCallback.cancel :: (stopRecording ⟨true, true, [7, 8]⟩).2) ∧
    RecCallback.complete ⟨[7, 8], "audio/wav"⟩ ∈ (cancelRecording ⟨true, true, [7, 8]⟩).2 :=
  cancelRecording_still_delivers ⟨true, true, [7, 8]⟩ rfl rfl

/-- The timer over the ideal one-second schedule: it stops exactly at
tick `maxDuration` and records that many seconds. -/
theorem runTimer_nominal (maxD : ℕ) (h1 : 1 ≤ maxD) (n : ℕ) :
    runTimer maxD (nominalTicks n) =
      if maxD ≤ n then ⟨maxD, true⟩ else ⟨n, false⟩ := by
  induction n with
  | zero =>
    rw [if_neg (by omega)]
    rfl
  | succ n ih =>
    have hsplit : nominalTicks (n + 1) = nominalTicks n ++ [1000 * (n + 1)] := by
      simp [nominalTicks, List.range_succ]
    rw [runTimer, hsplit, List.foldl_append, ← runTimer, ih]
    by_cases h : maxD ≤ n
    · rw [if_pos h, if_pos (by omega)]
      rfl
    · rw [if_neg h]
      have hsec : 1000 * (n + 1) / 1000 = n + 1 := by omega
      by_cases h2 : maxD ≤ n + 1
      · rw [if_pos h2]
        have heq : maxD = n + 1 := by omega
        simp [timerTick, hsec, heq]
      · rw [if_neg h2]
        simp [timerTick, hsec, h2]

/-- Claim C3: under the ideal one-second interval schedule, the timer
calls `stopRecording` exactly once the elapsed whole seconds reach
`maxDuration`, and the recorded duration in whole seconds never
exceeds `maxDuration`, for any `maxDuration ≥ 1` and any number of
ticks. -/
theorem micButton_never_exceeds_maxDuration (maxD n : ℕ) (h1 : 1 ≤ maxD) :
    (runTimer maxD (nominalTicks n)).recordingDuration ≤ maxD ∧
    ((runTimer maxD (nominalTicks n)).stopped = true ↔ maxD ≤ n) ∧
    ((runTimer maxD (nominalTicks n)).stopped = true →
      (runTimer maxD (nominalTicks n)).recordingDuration = maxD) := by
  rw [runTimer_nominal maxD h1 n]
  by_cases h : maxD ≤ n
  · simp [h]
  · simp [h]
    omega

/-- Witness for C3 at `maxDuration = 60` over 90 ticks. -/
theorem micButton_never_exceeds_maxDuration_witness :
    (runTimer 60 (nominalTicks 90)).recordingDuration ≤ 60 ∧
    ((runTimer 60 (nominalTicks 90)).stopped = true ↔ 60 ≤ 90) ∧
    ((runTimer 60 (nominalTicks 90)).stopped = true →
      (runTimer 60 (nominalTicks 90)).recordingDuration = 60) :=
  micButton_never_exceeds_maxDuration 60 90 (by decide)

/-- `setDoc` then `getDoc` of the same id yields the written value. -/
theorem lookupDoc_setDocIn_self {α : Type} (docs : List (String × α)) (id : String) (v : α) :
    lookupDoc (setDocIn docs id v) id = some v := by
  induction docs with
  | nil => simp [setDocIn, lookupDoc]
  | cons kv rest ih =>
    by_cases h : kv.1 = id
    · simp [setDocIn, h, lookupDoc]
    · simpa [setDocIn, h, lookupDoc, List.find?_cons, h] using ih

/-- `setDoc` with a fresh id appends the new document. -/
theorem setDocIn_of_not_mem {α : Type} (docs : List (String × α)) (id : String) (v : α)
    (h : id ∉ docs.map Prod.fst) : setDocIn docs id v = docs ++ [(id, v)] := by
  induction docs with
  | nil => rfl
  | cons kv rest ih =>
    have h1 : kv.1 ≠ id := by
      intro he
      exact h (by simp [← he])
    have h2 : id ∉ rest.map Prod.fst := by
      intro he
      exact h (by simp [he])
    simp [setDocIn, h1, ih h2]

/-- In a collection with no duplicate ids, a document id determines
the document. -/
theorem mem_eq_of_nodup_keys {α : Type} (docs : List (String × α))
    (hnd : (docs.map Prod.fst).Nodup) (k : String) (a b : α)
    (ha : (k, a) ∈ docs) (hb : (k, b) ∈ docs) : a = b := by
  induction docs with
  | nil => cases ha
  | cons kv rest ih =>
    rw [List.map_cons, List.nodup_cons] at hnd
    rcases List.mem_cons.mp ha with ha1 | ha1 <;> rcases List.mem_cons.mp hb with hb1 | hb1
    · rw [← ha1] at hb1
      exact congrArg Prod.snd (hb1.symm)
    · exfalso
      apply hnd.1
      have hk : kv.1 = k := by rw [← ha1]
      rw [hk]
      exact List.mem_map_of_mem Prod.fst hb1
    · exfalso
      apply hnd.1
      have hk : kv.1 = k := by rw [← hb1]
      rw [hk]
      exact List.mem_map_of_mem Prod.fst ha1
    · exact ih hnd.2 ha1 hb1

/-- `getDoc` after deleting the same id finds nothing. -/
theorem lookupDoc_deleteDocIn_self {α : Type} (docs : List (String × α)) (id : String) :
    lookupDoc (deleteDocIn docs id) id = none := by
  have hfind : (docs.filter fun kv => kv.1 ≠ id).find? (fun kv => kv.1 = id) = none := by
    rw [List.find?_eq_none]
    intro a ha
    have hmem := List.mem_filter.mp ha
    simpa using hmem.2
  simp [lookupDoc, deleteDocIn, hfind]

/-- Claim C8 (amended): `saveUserSettings` merges field-preservingly —
every optional settings field absent from the patch keeps its stored
value, `updatedAt` is always the current timestamp, `createdAt` is set
at creation, and a stored `createdAt` is preserved provided the patch
itself does not carry a `createdAt` value. -/
theorem saveUserSettings_field_preserving (db : FirestoreDb) (uid : String)
    (p : SettingsPatch) (now : ℕ) :
    ∃ r, lookupDoc (saveUserSettings uid p now db).users uid = some r ∧
      r.updatedAt = now ∧
      (lookupDoc db.users uid = none → r.createdAt = some now) ∧
      (∀ o, lookupDoc db.users uid = some o →
        (p.language = none → r.language = o.language) ∧
        (p.languageLevel = none → r.languageLevel = o.languageLevel) ∧
        (p.voice = none → r.voice = o.voice) ∧
        (p.theme = none → r.theme = o.theme) ∧
        (p.createdAt = none → r.createdAt = o.createdAt)) := by
  unfold saveUserSettings
  refine ⟨_, lookupDoc_setDocIn_self _ _ _, ?_, ?_, ?_⟩
  · cases lookupDoc db.users uid <;> rfl
  · intro h
    rw [h]
  · intro o h
    rw [h]
    refine ⟨?_, ?_, ?_, ?_, ?_⟩ <;> (intro hp; simp [mergeField, hp])

/-- Witness for C8 (amended) at a concrete state. -/
theorem saveUserSettings_field_preserving_witness :
    ∃ r, lookupDoc (saveUserSettings "u1" emptyPatch 77 demoDb).users "u1" = some r ∧
      r.updatedAt = 77 ∧
      (lookupDoc demoDb.users "u1" = none → r.createdAt = some 77) ∧
      (∀ o, lookupDoc demoDb.users "u1" = some o →
        (emptyPatch.language = none → r.language = o.language) ∧
        (emptyPatch.languageLevel = none → r.languageLevel = o.languageLevel) ∧
        (emptyPatch.voice = none → r.voice = o.voice) ∧
        (emptyPatch.theme = none → r.theme = o.theme) ∧
        (emptyPatch.createdAt = none → r.createdAt = o.createdAt)) :=
  saveUserSettings_field_preserving demoDb "u1" emptyPatch 77

/-- Counterexample for C8 as stated: a patch carrying `createdAt`
overwrites the stored `createdAt` of an existing document, so
"createdAt is set only when the document did not previously exist,
otherwise its stored value is preserved" fails. -/
theorem saveUserSettings_createdAt_overwritten :
    lookupDoc (saveUserSettings "u1" c8Patch 50 demoDb).users "u1" =
      some ⟨some "en", none, none, none, some 99, 50⟩ ∧
    lookupDoc demoDb.users "u1" = some demoSettings ∧
    demoSettings.createdAt = some 5 ∧
    c8Patch.createdAt = some 99 ∧
    (some 99 : Option ℕ) ≠ some 5 := by
  refine ⟨?_, rfl, rfl, rfl, by decide⟩
  rfl

/-- Claim C4: `saveTalkHistory` creates exactly one new document —
stored as the given item plus the generated id, which is returned —
and no operation of the firestore module ever modifies an existing
`talk_history` document: each operation either leaves a document
untouched or removes it entirely. -/
theorem saveTalkHistory_creates_once (db : FirestoreDb) (freshId : String)
    (item : TalkHistoryData)
    (hfresh : freshId ∉ db.talkHistory.map Prod.fst)
    (hnd : (db.talkHistory.map Prod.fst).Nodup) :
    (saveTalkHistory freshId item db).2 = freshId ∧
    lookupDoc (saveTalkHistory freshId item db).1.talkHistory freshId =
      some (withId item freshId) ∧
    (saveTalkHistory freshId item db).1.talkHistory.length =
      db.talkHistory.length + 1 ∧
    (∀ id v, (id, v) ∈ db.talkHistory →
      (id, v) ∈ (saveTalkHistory freshId item db).1.talkHistory) ∧
    (∀ op, WfOp db op → ∀ id v, (id, v) ∈ db.talkHistory →
      (id, v) ∈ (applyOp db op).talkHistory ∨
        ∀ w, (id, w) ∉ (applyOp db op).talkHistory) := by
  have happ := setDocIn_of_not_mem db.talkHistory freshId (withId item freshId) hfresh
  refine ⟨rfl, lookupDoc_setDocIn_self _ _ _, ?_, ?_, ?_⟩
  · show (setDocIn db.talkHistory freshId (withId item freshId)).length = _
    rw [happ]
    simp
  · intro id v hv
    show (id, v) ∈ setDocIn db.talkHistory freshId (withId item freshId)
    rw [happ]
    exact List.mem_append_left _ hv
  · intro op hwf id v hv
    cases op with
    | saveSettings uid p now => exact Or.inl hv
    | getSettings uid => exact Or.inl hv
    | getTalkHistory uid => exact Or.inl hv
    | saveTalk fid it =>
      have happ2 := setDocIn_of_not_mem db.talkHistory fid (withId it fid) hwf
      left
      show (id, v) ∈ setDocIn db.talkHistory fid (withId it fid)
      rw [happ2]
      exact List.mem_append_left _ hv
    | deleteUser uid fails =>
      by_cases hkeep : v.userId = uid ∧ fails id = false
      · right
        intro w hw
        have hw2 := List.mem_filter.mp hw
        have hvw : w = v :=
          mem_eq_of_nodup_keys db.talkHistory hnd id w v hw2.1 hv
        rw [hvw] at hw2
        simp [hkeep.1, hkeep.2] at hw2
      · left
        refine List.mem_filter.mpr ⟨hv, ?_⟩
        by_cases hA : v.userId = uid
        · have hB : fails id = true := by
            cases hB2 : fails id
            · exact absurd ⟨hA, hB2⟩ hkeep
            · rfl
          simp [hA, hB]
        · simp [hA]

/-- Witness for C4 at a concrete state, fresh id and operation. -/
theorem saveTalkHistory_creates_once_witness :
    (saveTalkHistory "h2" demoTalk demoDb).2 = "h2" ∧
    lookupDoc (saveTalkHistory "h2" demoTalk demoDb).1.talkHistory "h2" =
      some (withId demoTalk "h2") ∧
    (saveTalkHistory "h2" demoTalk demoDb).1.talkHistory.length =
      demoDb.talkHistory.length + 1 ∧
    (∀ id v, (id, v) ∈ demoDb.talkHistory →
      (id, v) ∈ (saveTalkHistory "h2" demoTalk demoDb).1.talkHistory) ∧
    (∀ op, WfOp demoDb op → ∀ id v, (id, v) ∈ demoDb.talkHistory →
      (id, v) ∈ (applyOp demoDb op).talkHistory ∨
        ∀ w, (id, w) ∉ (applyOp demoDb op).talkHistory) :=
  saveTalkHistory_creates_once demoDb "h2" demoTalk (by decide) (by decide)

/-- Claim C5: `deleteUserData` removes the `users/{uid}` document,
issues one delete per `talk_history` document whose `userId` matches,
and is best-effort without a transaction: a document survives exactly
when it did not match or its delete rejected, completed deletes are
kept even when the batch reports failure, and the batch fails exactly
when some issued delete rejected. -/
theorem deleteUserData_best_effort (uid : String) (fails : String → Bool)
    (db : FirestoreDb) :
    lookupDoc (deleteUserData uid fails db).1.users uid = none ∧
    (∀ k v, (k, v) ∈ (deleteUserData uid fails db).1.users ↔
      (k, v) ∈ db.users ∧ k ≠ uid) ∧
    (∀ id, id ∈ (deleteUserData uid fails db).2.2 ↔
      ∃ item, (id, item) ∈ db.talkHistory ∧ item.userId = uid) ∧
    (∀ id item, (id, item) ∈ (deleteUserData uid fails db).1.talkHistory ↔
      (id, item) ∈ db.talkHistory ∧ ¬(item.userId = uid ∧ fails id = false)) ∧
    ((deleteUserData uid fails db).2.1 = false ↔
      ∃ id item, (id, item) ∈ db.talkHistory ∧ item.userId = uid ∧ fails id = true) := by
  refine ⟨lookupDoc_deleteDocIn_self _ _, ?_, ?_, ?_, ?_⟩
  · intro k v
    simp [deleteUserData, deleteDocIn, List.mem_filter]
  · intro id
    simp only [deleteUserData, List.map_map]
    constructor
    · intro h
      rcases List.mem_map.mp h with ⟨kv, hkv, hid⟩
      have h2 := List.mem_filter.mp hkv
      refine ⟨kv.2, ?_, by simpa using h2.2⟩
      rw [← hid]
      exact h2.1
    · rintro ⟨item, hmem, huid⟩
      refine List.mem_map.mpr ⟨(id, item), List.mem_filter.mpr ⟨hmem, by simpa using huid⟩, rfl⟩
  · intro id item
    simp [deleteUserData, List.mem_filter]
    intro _
    constructor
    · intro h hA
      rcases h with h | h
      · exact absurd hA h
      · exact h
    · intro h
      by_cases hA : item.userId = uid
      · exact Or.inr (h hA)
      · exact Or.inl hA
  · simp only [deleteUserData]
    rw [← Bool.not_eq_true, List.all_eq_true]
    constructor
    · intro h
      push_neg at h
      rcases h with ⟨kv, hkv, hfail⟩
      have h2 := List.mem_filter.mp hkv
      exact ⟨kv.1, kv.2, h2.1, by simpa using h2.2, by simpa using hfail⟩
    · rintro ⟨id, item, hmem, huid, hfail⟩
      intro hall
      have := hall (id, item) (List.mem_filter.mpr ⟨hmem, by simpa using huid⟩)
      simp [hfail] at this

/-- Witness for C5 at a concrete state with one rejected delete. -/
theorem deleteUserData_best_effort_witness :
    lookupDoc (deleteUserData "u1" (fun _ => true) demoDb).1.users "u1" = none ∧
    (∀ k v, (k, v) ∈ (deleteUserData "u1" (fun _ => true) demoDb).1.users ↔
      (k, v) ∈ demoDb.users ∧ k ≠ "u1") ∧
    (∀ id, id ∈ (deleteUserData "u1" (fun _ => true) demoDb).2.2 ↔
      ∃ item, (id, item) ∈ demoDb.talkHistory ∧ item.userId = "u1") ∧
    (∀ id item, (id, item) ∈ (deleteUserData "u1" (fun _ => true) demoDb).1.talkHistory ↔
      (id, item) ∈ demoDb.talkHistory ∧ ¬(item.userId = "u1" ∧ (fun _ => true) id = false)) ∧
    ((deleteUserData "u1" (fun _ => true) demoDb).2.1 = false ↔
      ∃ id item, (id, item) ∈ demoDb.talkHistory ∧ item.userId = "u1" ∧
        (fun _ => true) id = true) :=
  deleteUserData_best_effort "u1" (fun _ => true) demoDb

/-- Claim C6 (amended): provided the OpenAI API key is configured, the
`/api/tts` handler responds 400 with a JSON error before any OpenAI
call exactly when the input is invalid in the code's sense (`text`
absent or falsy, `voice` not one of the six names, or `speed` not
coercing to a number in [0.25, 4.0]); a body that fails to parse (or
is `null`) is caught and answered with status 500, and an error thrown
by the OpenAI call on valid input is caught and answered with the
error's truthy status or 500 — never propagated. -/
theorem ttsPOST_validation (apiKey : Option String) (body : Except Unit Json)
    (oracle : Except ApiError ℕ) (hkey : keyTruthy apiKey = true) :
    (body = Except.error () →
      ttsPOST apiKey body oracle =
        (TtsResponse.jsonErr 500 "Failed to generate speech", false)) ∧
    (∀ j, body = Except.ok j → jsIsNull j = true →
      ttsPOST apiKey body oracle =
        (TtsResponse.jsonErr 500 "Failed to generate speech", false)) ∧
    (∀ j, body = Except.ok j → jsIsNull j = false →
      ((statusOf (ttsPOST apiKey body oracle).1 = 400 ∧
          (ttsPOST apiKey body oracle).2 = false) ↔ ttsInvalidInput j = true) ∧
      (ttsInvalidInput j = false → ∀ e, oracle = Except.error e →
        ttsPOST apiKey body oracle =
          (TtsResponse.jsonErr (statusOr500 e) "Failed to generate speech", true)) ∧
      (ttsInvalidInput j = false → ∀ n, oracle = Except.ok n →
        ttsPOST apiKey body oracle = (TtsResponse.audio n, true))) := by
  refine ⟨?_, ?_, ?_⟩
  · intro hb
    subst hb
    simp [ttsPOST, hkey]
  · intro j hb hnull
    subst hb
    simp [ttsPOST, hkey, hnull]
  · intro j hb hnull
    subst hb
    by_cases ht : jsTruthy (ttsText j) = false
    · simp [ttsPOST, hkey, hnull, ht, ttsInvalidInput, statusOf]
    · rw [Bool.not_eq_false] at ht
      by_cases hv : voiceOk (ttsVoice j) = false
      · simp [ttsPOST, hkey, hnull, ht, hv, ttsInvalidInput, statusOf]
      · rw [Bool.not_eq_false] at hv
        cases hn : jsNumber (ttsSpeed j) with
        | none =>
          simp [ttsPOST, hkey, hnull, ht, hv, hn, ttsInvalidInput, ttsSpeedBad, statusOf]
        | some q =>
          by_cases hq : q < mkRat 1 4 ∨ 4 < q
          · simp [ttsPOST, hkey, hnull, ht, hv, hn, hq, ttsInvalidInput, ttsSpeedBad,
              statusOf]
            rcases hq with hq | hq <;> simp [hq]
          · have hinv : ttsInvalidInput j = false := by
              push_neg at hq
              simp [ttsInvalidInput, ttsSpeedBad, ht, hv, hn]
              exact ⟨hq.1, hq.2⟩
            cases oracle with
            | error e =>
              simp [ttsPOST, hkey, hnull, ht, hv, hn, hq, hinv, statusOf]
            | ok n =>
              simp [ttsPOST, hkey, hnull, ht, hv, hn, hq, hinv, statusOf]

/-- Witness for C6 (amended) at a concrete key, body and upstream
error carrying no status. -/
theorem ttsPOST_validation_witness :
    ((Except.ok c6Body : Except Unit Json) = Except.error () →
      ttsPOST (some "k") (Except.ok c6Body) (Except.error ⟨"boom", none⟩) =
        (TtsResponse.jsonErr 500 "Failed to generate speech", false)) ∧
    (∀ j, (Except.ok c6Body : Except Unit Json) = Except.ok j → jsIsNull j = true →
      ttsPOST (some "k") (Except.ok c6Body) (Except.error ⟨"boom", none⟩) =
        (TtsResponse.jsonErr 500 "Failed to generate speech", false)) ∧
    (∀ j, (Except.ok c6Body : Except Unit Json) = Except.ok j → jsIsNull j = false →
      ((statusOf (ttsPOST (some "k") (Except.ok c6Body) (Except.error ⟨"boom", none⟩)).1 = 400 ∧
          (ttsPOST (some "k") (Except.ok c6Body) (Except.error ⟨"boom", none⟩)).2 = false) ↔
        ttsInvalidInput j = true) ∧
      (ttsInvalidInput j = false → ∀ e,
        (Except.error ⟨"boom", none⟩ : Except ApiError ℕ) = Except.error e →
        ttsPOST (some "k") (Except.ok c6Body) (Except.error ⟨"boom", none⟩) =
          (TtsResponse.jsonErr (statusOr500 e) "Failed to generate speech", true)) ∧
      (ttsInvalidInput j = false → ∀ n,
        (Except.error ⟨"boom", none⟩ : Except ApiError ℕ) = Except.ok n →
        ttsPOST (some "k") (Except.ok c6Body) (Except.error ⟨"boom", none⟩) =
          (TtsResponse.audio n, true))) :=
  ttsPOST_validation (some "k") (Except.ok c6Body) (Except.error ⟨"boom", none⟩) rfl

/-- Counterexample for C6 as stated: with the key configured, a body
whose `text` field is present but empty is answered 400, although none
of the claim's three conditions (text absent, invalid voice, invalid
speed) holds — the "exactly when" fails. -/
theorem ttsPOST_400_despite_text_present :
    (ttsPOST (some "k") (Except.ok c6Body) (Except.ok 7)).1 =
      TtsResponse.jsonErr 400 "Text is required" ∧
    ¬ specTtsBadInput c6Body := by
  constructor
  · rfl
  · intro h
    rcases h with h | h | h
    · simp [c6Body, getField] at h
    · simp [c6Body, getField, ttsVoice, voiceOk, validVoices] at h
    · simp [c6Body, getField, ttsSpeed, ttsSpeedBad, jsNumber] at h
      exact absurd h (by decide)

/-- The per-chunk update preserves message ids. -/
theorem streamUpdate_id (aid a : String) (m : Message) :
    (streamUpdate aid a m).id = m.id := by
  unfold streamUpdate
  split <;> rfl

/-- A later per-chunk update overwrites an earlier one. -/
theorem streamUpdate_comp (aid a1 a2 : String) (m : Message) :
    streamUpdate aid a2 (streamUpdate aid a1 m) = streamUpdate aid a2 m := by
  unfold streamUpdate
  by_cases h : m.id = aid
  · simp [h]
  · simp [h]

/-- Mapping two per-chunk updates collapses to the last one. -/
theorem map_streamUpdate_comp (aid a1 a2 : String) (msgs : List Message) :
    (msgs.map (streamUpdate aid a1)).map (streamUpdate aid a2) =
      msgs.map (streamUpdate aid a2) := by
  rw [List.map_map]
  apply List.map_congr_left
  intro m _
  exact streamUpdate_comp aid a1 a2 m

/-- Running the read loop over a non-empty block of chunks followed by
further events: the accumulator grows by the extracted concatenation
and every message carries the last update. -/
theorem streamLoop_chunks (aid : String) (r : String) (rs : List String)
    (evs : List ReadEvent) (acc : String) (msgs : List Message) :
    streamLoop aid acc msgs (List.map ReadEvent.chunk (r :: rs) ++ evs) =
      streamLoop aid (acc ++ joinExtract (r :: rs))
        (msgs.map (streamUpdate aid (acc ++ joinExtract (r :: rs)))) evs := by
  induction rs generalizing acc msgs r with
  | nil =>
    simp only [List.map_cons, List.map_nil, List.cons_append, List.nil_append,
      streamLoop, joinExtract, String.append_empty]
    rfl
  | cons r2 rs2 ih =>
    have hstep : streamLoop aid acc msgs
        (List.map ReadEvent.chunk (r :: r2 :: rs2) ++ evs) =
        streamLoop aid (acc ++ extractContent r)
          (msgs.map (streamUpdate aid (acc ++ extractContent r)))
          (List.map ReadEvent.chunk (r2 :: rs2) ++ evs) := rfl
    rw [hstep, ih]
    rw [map_streamUpdate_comp]
    have hs : acc ++ extractContent r ++ joinExtract (r2 :: rs2) =
        acc ++ joinExtract (r :: r2 :: rs2) := by
      rw [String.append_assoc]
      rfl
    rw [hs]

/-- `handleStreamingRequest` over an ok response whose stream is a
pure chunk list: no throw, the final message carries the extracted
concatenation, and the placeholder update is the last accumulated
content. -/
theorem handleStreaming_chunks (aid : String) (now status : ℕ) (raws : List String)
    (msgs : List Message) (hok : respOk status = true) :
    handleStreamingRequest aid now
        (FetchOutcome.resp status (some (raws.map ReadEvent.chunk))) msgs =
      ((if raws = [] then msgs else msgs.map (streamUpdate aid (joinExtract raws))),
       some ⟨aid, joinExtract raws, MessageRole.assistant, now, none, none⟩, none) := by
  cases raws with
  | nil => simp [handleStreamingRequest, hok, streamLoop, joinExtract]
  | cons r rs =>
    have h := streamLoop_chunks aid r rs [] "" msgs
    rw [List.append_nil] at h
    have h2 : streamLoop aid "" msgs (List.map ReadEvent.chunk (r :: rs)) =
        ("" ++ joinExtract (r :: rs),
         msgs.map (streamUpdate aid ("" ++ joinExtract (r :: rs))), none) := by
      rw [h]
      rfl
    simp only [handleStreamingRequest, hok, Bool.true_eq_false, if_false, h2,
      String.empty_append]
    simp

/-- `handleStreamingRequest` over an ok response whose stream is a
chunk block ending in a rejected read: an `AbortError` rejection is
swallowed — no throw and no final message. -/
theorem handleStreaming_abort_swallowed (aid : String) (now status : ℕ)
    (raws : List String) (e : JsError) (msgs : List Message)
    (hok : respOk status = true) (habort : e.name = "AbortError") :
    handleStreamingRequest aid now
        (FetchOutcome.resp status
          (some (raws.map ReadEvent.chunk ++ [ReadEvent.failRead e]))) msgs =
      ((if raws = [] then msgs else msgs.map (streamUpdate aid (joinExtract raws))),
       none, none) := by
  cases raws with
  | nil =>
    simp [handleStreamingRequest, hok, streamLoop, habort]
  | cons r rs =>
    have h := streamLoop_chunks aid r rs [ReadEvent.failRead e] "" msgs
    have h2 : streamLoop aid "" msgs
        (List.map ReadEvent.chunk (r :: rs) ++ [ReadEvent.failRead e]) =
        ("" ++ joinExtract (r :: rs),
         msgs.map (streamUpdate aid ("" ++ joinExtract (r :: rs))), some e) := by
      rw [h]
      rfl
    simp only [handleStreamingRequest, hok, Bool.true_eq_false, if_false, h2,
      String.empty_append]
    simp [habort]

/-- The truncation step only removes messages. -/
theorem truncateForMax_sublist (n : ℕ) (l : List Message) :
    List.Sublist (truncateForMax n l) l := by
  unfold truncateForMax
  split_ifs with h1 h2
  · exact List.eraseIdx_sublist l 1
  · exact List.drop_sublist 1 l
  · exact List.Sublist.refl l

/-- `addMessage` on a user message whose request completes without a
throw: state and log in terms of the `handleStreamingRequest` result. -/
theorem addMessage_user_success (maxStore : ℕ) (content : String) (uId aId : String)
    (now : ℕ) (outcome : FetchOutcome) (st : ChatState) (htrim : jsTrim content ≠ "")
    (msgs3 : List Message) (rm : Option Message)
    (hh : handleStreamingRequest aId now outcome
        ((truncateForMax maxStore st.messages ++
          [⟨uId, content, MessageRole.user, now, none, none⟩]) ++
          [⟨aId, "", MessageRole.assistant, now, some true, none⟩]) = (msgs3, rm, none)) :
    addMessage maxStore content MessageRole.user uId aId now outcome st =
      ({ messages := msgs3, isLoading := false, error := none },
       { errors := [], responses := rm.toList, requested := true }) := by
  unfold addMessage
  rw [if_neg htrim]
  simp only [hh]

/-- `addMessage` on a user message whose request throws: the catch
block updates the placeholder, the error state and the log. -/
theorem addMessage_user_thrown (maxStore : ℕ) (content : String) (uId aId : String)
    (now : ℕ) (outcome : FetchOutcome) (st : ChatState) (htrim : jsTrim content ≠ "")
    (msgs3 : List Message) (e : JsError)
    (hh : handleStreamingRequest aId now outcome
        ((truncateForMax maxStore st.messages ++
          [⟨uId, content, MessageRole.user, now, none, none⟩]) ++
          [⟨aId, "", MessageRole.assistant, now, some true, none⟩]) = (msgs3, none, some e)) :
    addMessage maxStore content MessageRole.user uId aId now outcome st =
      ({ messages := msgs3.map (fun m =>
            if m.id = aId then
              { m with error := some (errorMessageFor e), isLoading := some false }
            else m),
         isLoading := false, error := some (errorMessageFor e) },
       { errors := [errorMessageFor e], responses := [], requested := true }) := by
  unfold addMessage
  rw [if_neg htrim]
  simp only [hh]
  rfl

/-- The assistant placeholder id does not occur among the ids of the
truncated history plus the new user message. -/
theorem fresh_not_in_msgs1 (maxStore : ℕ) (st : ChatState) (aId uId content : String)
    (now : ℕ) (hfresh : aId ∉ st.messages.map Message.id) (hneq : aId ≠ uId) :
    aId ∉ (truncateForMax maxStore st.messages ++
      [(⟨uId, content, MessageRole.user, now, none, none⟩ : Message)]).map Message.id := by
  rw [List.map_append]
  intro h
  rcases List.mem_append.mp h with h1 | h1
  · exact hfresh (((truncateForMax_sublist maxStore st.messages).map Message.id).subset h1)
  · simp at h1
    exact hneq h1

/-- Claim C1 (amended): for every successful fetch (`response.ok`,
non-null body) whose stream delivers a sequence of decoded chunks, the
assistant message's final content is the concatenation, in arrival
order, of the content extracted from each chunk by the code's rule
(truthy `parsed.content`, else truthy `choices[0].delta.content`, else
the empty string when the chunk parses as JSON; the raw chunk text
when it does not), and `onMessageResponse` receives exactly this
accumulated text. -/
theorem useChat_streaming_accumulates (maxStore : ℕ) (content : String) (uId aId : String)
    (now status : ℕ) (raws : List String) (st : ChatState)
    (htrim : jsTrim content ≠ "")
    (hok : respOk status = true)
    (hfresh : aId ∉ st.messages.map Message.id)
    (hneq : aId ≠ uId) :
    (addMessage maxStore content MessageRole.user uId aId now
        (FetchOutcome.resp status (some (raws.map ReadEvent.chunk))) st).2.responses =
      [⟨aId, joinExtract raws, MessageRole.assistant, now, none, none⟩] ∧
    (∀ m ∈ (addMessage maxStore content MessageRole.user uId aId now
        (FetchOutcome.resp status (some (raws.map ReadEvent.chunk))) st).1.messages,
      m.id = aId → m.content = joinExtract raws) := by
  have hids := fresh_not_in_msgs1 maxStore st aId uId content now hfresh hneq
  have hh := handleStreaming_chunks aId now status raws
    ((truncateForMax maxStore st.messages ++
      [⟨uId, content, MessageRole.user, now, none, none⟩]) ++
      [⟨aId, "", MessageRole.assistant, now, some true, none⟩]) hok
  rw [addMessage_user_success maxStore content uId aId now _ st htrim _ _ hh]
  refine ⟨rfl, ?_⟩
  intro m hm hmid
  by_cases hnil : raws = []
  · subst hnil
    rw [if_pos rfl] at hm
    rcases List.mem_append.mp hm with h1 | h1
    · exfalso
      apply hids
      rw [← hmid]
      exact List.mem_map_of_mem Message.id h1
    · have h2 := List.mem_singleton.mp h1
      rw [h2]
      rfl
  · rw [if_neg hnil] at hm
    rcases List.mem_map.mp hm with ⟨m0, hm0, hup⟩
    by_cases h0 : m0.id = aId
    · rw [← hup]
      simp [streamUpdate, h0]
    · exfalso
      apply h0
      rw [← hmid, ← hup]
      exact (streamUpdate_id aId (joinExtract raws) m0).symm ▸ rfl

/-- Witness for C1 (amended) at a concrete state and chunk stream. -/
theorem useChat_streaming_accumulates_witness :
    (addMessage 100 "hi" MessageRole.user "u1" "a1" 0
        (FetchOutcome.resp 200 (some (["hello", " world"].map ReadEvent.chunk)))
        chatState0).2.responses =
      [⟨"a1", joinExtract ["hello", " world"], MessageRole.assistant, 0, none, none⟩] ∧
    (∀ m ∈ (addMessage 100 "hi" MessageRole.user "u1" "a1" 0
        (FetchOutcome.resp 200 (some (["hello", " world"].map ReadEvent.chunk)))
        chatState0).1.messages,
      m.id = "a1" → m.content = joinExtract ["hello", " world"]) :=
  useChat_streaming_accumulates 100 "hi" "u1" "a1" 0 200 ["hello", " world"] chatState0
    (by decide) (by decide) (by decide) (by decide)

/-- Counterexample for C1 as stated: a chunk that parses as JSON but
has neither a `content` field nor `choices[0].delta.content` — the
two-character chunk consisting of braces — contributes the empty
string (the code's `|| ''` fallback), not the raw chunk text the
claim's extraction rule prescribes. -/
theorem useChat_spec_extraction_differs :
    c1CounterRun.2.responses = [⟨"a1", "", MessageRole.assistant, 0, none, none⟩] ∧
    specJoinExtract ["\x7b\x7d"] = "\x7b\x7d" ∧
    ("" : String) ≠ "\x7b\x7d" := by
  refine ⟨rfl, rfl, by decide⟩

/-- Claim C7 (amended): when the awaited fetch itself rejects with an
`AbortError` (abort before or during the request, before the body is
consumed), `addMessage` surfaces it as 'Request was cancelled': the
placeholder carries the error with `isLoading` false, the hook error
state is set, and `onError` is invoked; but an `AbortError` that
interrupts the streaming body read is swallowed by the streaming
handler — no error is surfaced and `onMessageResponse` is not
invoked. -/
theorem useChat_abort_cancelled (maxStore : ℕ) (content : String) (uId aId : String)
    (now : ℕ) (e : JsError) (st : ChatState)
    (htrim : jsTrim content ≠ "") (habort : e.name = "AbortError") :
    ((addMessage maxStore content MessageRole.user uId aId now
        (FetchOutcome.fail e) st).1.error = some "Request was cancelled" ∧
     (addMessage maxStore content MessageRole.user uId aId now
        (FetchOutcome.fail e) st).1.isLoading = false ∧
     (addMessage maxStore content MessageRole.user uId aId now
        (FetchOutcome.fail e) st).2.errors = ["Request was cancelled"] ∧
     (⟨aId, "", MessageRole.assistant, now, some false,
        some "Request was cancelled"⟩ : Message) ∈
       (addMessage maxStore content MessageRole.user uId aId now
         (FetchOutcome.fail e) st).1.messages) ∧
    (∀ (raws : List String) (status : ℕ) (e2 : JsError), respOk status = true →
      e2.name = "AbortError" →
      (addMessage maxStore content MessageRole.user uId aId now
          (FetchOutcome.resp status
            (some (raws.map ReadEvent.chunk ++ [ReadEvent.failRead e2]))) st).1.error =
        none ∧
      (addMessage maxStore content MessageRole.user uId aId now
          (FetchOutcome.resp status
            (some (raws.map ReadEvent.chunk ++ [ReadEvent.failRead e2]))) st).2.errors =
        [] ∧
      (addMessage maxStore content MessageRole.user uId aId now
          (FetchOutcome.resp status
            (some (raws.map ReadEvent.chunk ++ [ReadEvent.failRead e2]))) st).2.responses =
        []) := by
  constructor
  · have hh : handleStreamingRequest aId now (FetchOutcome.fail e)
        ((truncateForMax maxStore st.messages ++
          [⟨uId, content, MessageRole.user, now, none, none⟩]) ++
          [⟨aId, "", MessageRole.assistant, now, some true, none⟩]) =
        (((truncateForMax maxStore st.messages ++
          [⟨uId, content, MessageRole.user, now, none, none⟩]) ++
          [⟨aId, "", MessageRole.assistant, now, some true, none⟩]), none, some e) := rfl
    rw [addMessage_user_thrown maxStore content uId aId now _ st htrim _ e hh]
    have hmsg : errorMessageFor e = "Request was cancelled" := by
      simp [errorMessageFor, habort]
    refine ⟨by simp [hmsg], rfl, by simp [hmsg], ?_⟩
    rw [List.map_append]
    apply List.mem_append_right
    simp [hmsg]
  · intro raws status e2 hok habort2
    have hh := handleStreaming_abort_swallowed aId now status raws e2
      ((truncateForMax maxStore st.messages ++
        [⟨uId, content, MessageRole.user, now, none, none⟩]) ++
        [⟨aId, "", MessageRole.assistant, now, some true, none⟩]) hok habort2
    rw [addMessage_user_success maxStore content uId aId now _ st htrim _ _ hh]
    exact ⟨rfl, rfl, rfl⟩

/-- Witness for C7 (amended) at a concrete abort. -/
theorem useChat_abort_cancelled_witness :
    ((addMessage 100 "hi" MessageRole.user "u1" "a1" 0
        (FetchOutcome.fail abortErrorJs) chatState0).1.error =
          some "Request was cancelled" ∧
     (addMessage 100 "hi" MessageRole.user "u1" "a1" 0
        (FetchOutcome.fail abortErrorJs) chatState0).1.isLoading = false ∧
     (addMessage 100 "hi" MessageRole.user "u1" "a1" 0
        (FetchOutcome.fail abortErrorJs) chatState0).2.errors =
          ["Request was cancelled"] ∧
     (⟨"a1", "", MessageRole.assistant, 0, some false,
        some "Request was cancelled"⟩ : Message) ∈
       (addMessage 100 "hi" MessageRole.user "u1" "a1" 0
         (FetchOutcome.fail abortErrorJs) chatState0).1.messages) ∧
    (∀ (raws : List String) (status : ℕ) (e2 : JsError), respOk status = true →
      e2.name = "AbortError" →
      (addMessage 100 "hi" MessageRole.user "u1" "a1" 0
          (FetchOutcome.resp status
            (some (raws.map ReadEvent.chunk ++ [ReadEvent.failRead e2])))
          chatState0).1.error = none ∧
      (addMessage 100 "hi" MessageRole.user "u1" "a1" 0
          (FetchOutcome.resp status
            (some (raws.map ReadEvent.chunk ++ [ReadEvent.failRead e2])))
          chatState0).2.errors = [] ∧
      (addMessage 100 "hi" MessageRole.user "u1" "a1" 0
          (FetchOutcome.resp status
            (some (raws.map ReadEvent.chunk ++ [ReadEvent.failRead e2])))
          chatState0).2.responses = []) :=
  useChat_abort_cancelled 100 "hi" "u1" "a1" 0 abortErrorJs chatState0
    (by decide) rfl

/-- Counterexample for C7 as stated: an abort that interrupts the body
read rejects the awaited `reader.read()` with an `AbortError`, yet no
'Request was cancelled' error is surfaced — the hook error state stays
empty and `onError` is never invoked. -/
theorem useChat_midstream_abort_not_surfaced :
    c7CounterRun.1.error = none ∧ c7CounterRun.2.errors = [] ∧
    c7CounterRun.2.responses = [] ∧ abortErrorJs.name = "AbortError" :=
  ⟨rfl, rfl, rfl, rfl⟩

/-- The silence threshold is below the speech-start threshold. -/
theorem silence_lt_speech : SILENCE_THRESHOLD < MIN_SPEECH_LEVEL := by decide

/-- `checkSilence` never changes `stopped`. -/
theorem checkSilence_stopped (d t : ℤ) (lvl : ℚ) (s : SilState) :
    (checkSilence d t lvl s).stopped = s.stopped := by
  unfold checkSilence
  dsimp only
  split_ifs <;> rfl

/-- `checkSilence` sets `hasSpeechStarted` exactly when the level
exceeds the speech threshold (and never clears it). -/
theorem checkSilence_hasSpeech (d t : ℤ) (lvl : ℚ) (s : SilState) :
    (checkSilence d t lvl s).hasSpeechStarted =
      (s.hasSpeechStarted || decide (MIN_SPEECH_LEVEL < lvl)) := by
  unfold checkSilence
  dsimp only
  split_ifs <;> simp_all

/-- Characterization of the auto-stop timeout after one
`checkSilence` call. -/
theorem checkSilence_deadline (d t : ℤ) (lvl : ℚ) (s : SilState) :
    (checkSilence d t lvl s).deadline =
      if MIN_SPEECH_LEVEL < lvl then none
      else if s.hasSpeechStarted = true ∧ lvl < SILENCE_THRESHOLD ∧
          SILENCE_THRESHOLD < s.lastAudioLevel then
        (if s.deadline = none then some (t + d) else s.deadline)
      else if s.hasSpeechStarted = true ∧ SILENCE_THRESHOLD ≤ lvl then none
      else s.deadline := by
  unfold checkSilence
  by_cases h1 : MIN_SPEECH_LEVEL < lvl
  · have hge : SILENCE_THRESHOLD ≤ lvl := le_of_lt (lt_trans silence_lt_speech h1)
    have hnlt : ¬(lvl < SILENCE_THRESHOLD) := not_lt.mpr hge
    simp [h1, hnlt]
  · by_cases h2 : s.hasSpeechStarted
    · by_cases h3 : lvl < SILENCE_THRESHOLD ∧ SILENCE_THRESHOLD < s.lastAudioLevel
      · simp [h1, h2, h3]
        split_ifs <;> rfl
      · by_cases h4 : SILENCE_THRESHOLD ≤ lvl
        · by_cases h5 : s.deadline = none
          · simp [h1, h2, h3, h4, h5]
          · simp [h1, h2, h3, h4, h5]
        · simp [h1, h2, h3, h4]
    · simp [h1, h2]

/-- Splitting strict time-monotonicity at the last event. -/
theorem timesIncreasing_append : ∀ (es : List SilEvent) (e : SilEvent),
    timesIncreasing (es ++ [e]) = true →
    timesIncreasing es = true ∧ ∀ x ∈ es, evTime x < evTime e := by
  intro es e
  induction es with
  | nil => exact fun _ => ⟨rfl, by simp⟩
  | cons a tail ih =>
    cases tail with
    | nil =>
      intro h
      simp only [List.cons_append, List.nil_append, timesIncreasing,
        Bool.and_eq_true, decide_eq_true_eq] at h
      refine ⟨rfl, ?_⟩
      intro x hx
      rw [List.mem_singleton.mp hx]
      exact h.1
    | cons b tb =>
      intro h
      simp only [List.cons_append, timesIncreasing, Bool.and_eq_true,
        decide_eq_true_eq] at h
      have hrest := ih h.2
      refine ⟨?_, ?_⟩
      · simp only [timesIncreasing, Bool.and_eq_true, decide_eq_true_eq]
        exact ⟨h.1, hrest.1⟩
      · intro x hx
        rcases List.mem_cons.mp hx with hx1 | hx1
        · rw [hx1]
          exact lt_trans h.1 (hrest.2 b (List.mem_cons_self b tb))
        · exact hrest.2 x hx1

/-- Speech evidence is preserved by extending the trace. -/
theorem spokeBefore_append (es : List SilEvent) (e : SilEvent) (h : SpokeBefore es) :
    SpokeBefore (es ++ [e]) := by
  rcases h with ⟨t, lvl, hmem, hlt⟩
  exact ⟨t, lvl, List.mem_append_left _ hmem, hlt⟩

/-- A loud sample is speech evidence. -/
theorem spokeBefore_new (es : List SilEvent) (t : ℤ) (lvl : ℚ)
    (h : MIN_SPEECH_LEVEL < lvl) : SpokeBefore (es ++ [SilEvent.sample t lvl]) :=
  ⟨t, lvl, List.mem_append_right _ (by simp), h⟩

/-- A quiet window survives appending a timer event. -/
theorem quietWindow_append_fire (d t0 tf : ℤ) (es : List SilEvent)
    (h : QuietWindow d t0 es) : QuietWindow d t0 (es ++ [SilEvent.timerFire tf]) := by
  intro t lvl hmem h1 h2
  rcases List.mem_append.mp hmem with hm | hm
  · exact h t lvl hm h1 h2
  · simp at hm

/-- A quiet window survives appending a sample below the silence
threshold. -/
theorem quietWindow_append_sample_low (d t0 : ℤ) (es : List SilEvent) (t : ℤ) (lvl : ℚ)
    (hlow : lvl < SILENCE_THRESHOLD) (h : QuietWindow d t0 es) :
    QuietWindow d t0 (es ++ [SilEvent.sample t lvl]) := by
  intro t2 lvl2 hmem h1 h2
  rcases List.mem_append.mp hmem with hm | hm
  · exact h t2 lvl2 hm h1 h2
  · have he := List.mem_singleton.mp hm
    injection he with he1 he2
    rw [he2]
    exact hlow

/-- A quiet window survives appending a sample at or after its end. -/
theorem quietWindow_append_sample_late (d t0 : ℤ) (es : List SilEvent) (t : ℤ) (lvl : ℚ)
    (hlate : t0 ≤ t) (h : QuietWindow d t0 es) :
    QuietWindow d t0 (es ++ [SilEvent.sample t lvl]) := by
  intro t2 lvl2 hmem h1 h2
  rcases List.mem_append.mp hmem with hm | hm
  · exact h t2 lvl2 hm h1 h2
  · have he := List.mem_singleton.mp hm
    injection he with he1 he2
    exfalso
    rw [he1] at h2
    exact absurd hlate (not_le.mpr h2)

/-- Arming a fresh timeout opens a quiet window: all earlier events
are strictly before the arming sample, and the arming sample itself is
quiet. -/
theorem quietWindow_new (d : ℤ) (es : List SilEvent) (t : ℤ) (lvl : ℚ)
    (hlate : ∀ x ∈ es, evTime x < t) (hlow : lvl < SILENCE_THRESHOLD) :
    QuietWindow d (t + d) (es ++ [SilEvent.sample t lvl]) := by
  intro t2 lvl2 hmem h1 h2
  rcases List.mem_append.mp hmem with hm | hm
  · exfalso
    have hx := hlate _ hm
    have ht : t + d - d = t := by ring
    rw [ht] at h1
    exact absurd h1 (not_le.mpr hx)
  · have he := List.mem_singleton.mp hm
    injection he with he1 he2
    rw [he2]
    exact hlow

/-- The invariant holds initially. -/
theorem silInv_nil (d : ℤ) : SilInv d [] silInit := by
  refine ⟨?_, ?_, ?_, ?_⟩
  · intro h
    simp [silInit] at h
  · intro t0 h
    simp [silInit] at h
  · intro h
    simp [silInit] at h
  · intro h
    simp [silInit] at h

/-- The invariant is preserved by every event whose time is after all
processed events. -/
theorem silInv_step (d : ℤ) (es : List SilEvent) (s : SilState) (e : SilEvent)
    (hinv : SilInv d es s) (hlate : ∀ x ∈ es, evTime x < evTime e) :
    SilInv d (es ++ [e]) (silStep d s e) := by
  obtain ⟨inv1, inv2, inv3, inv4⟩ := hinv
  cases e with
  | timerFire tf =>
    by_cases hc : s.deadline = some tf ∧ s.stopped = false
    · simp only [silStep, if_pos hc]
      refine ⟨?_, ?_, ?_, ?_⟩
      · intro h
        exact spokeBefore_append _ _ (inv1 h)
      · intro t0 h0
        cases h0
      · intro _
        have h2 := inv2 tf hc.1
        exact ⟨spokeBefore_append _ _ (inv1 h2.1), tf,
          List.mem_append_right _ (by simp), quietWindow_append_fire _ _ _ _ h2.2⟩
      · intro _
        rfl
    · simp only [silStep, if_neg hc]
      refine ⟨fun h => spokeBefore_append _ _ (inv1 h), ?_, ?_, inv4⟩
      · intro t0 h0
        exact ⟨(inv2 t0 h0).1, quietWindow_append_fire _ _ _ _ (inv2 t0 h0).2⟩
      · intro h
        obtain ⟨hs, t0, hmem, hq⟩ := inv3 h
        exact ⟨spokeBefore_append _ _ hs, t0, List.mem_append_left _ hmem,
          quietWindow_append_fire _ _ _ _ hq⟩
  | sample t lvl =>
    by_cases hstop : s.stopped = true
    · have hst : s.stopped = true := hstop
      simp only [silStep, hst, if_pos]
      refine ⟨fun h => spokeBefore_append _ _ (inv1 h), ?_, ?_, inv4⟩
      · intro t0 h0
        rw [inv4 hst] at h0
        cases h0
      · intro h
        obtain ⟨hs, t0, hmem, hq⟩ := inv3 h
        refine ⟨spokeBefore_append _ _ hs, t0, List.mem_append_left _ hmem, ?_⟩
        apply quietWindow_append_sample_late d t0 es t lvl ?_ hq
        exact le_of_lt (hlate _ hmem)
    · have hstopF : s.stopped = false := by
        cases hsb : s.stopped
        · rfl
        · exact absurd hsb hstop
      simp only [silStep, hstopF, Bool.false_eq_true, if_false]
      refine ⟨?_, ?_, ?_, ?_⟩
      · intro h
        rw [checkSilence_hasSpeech] at h
        rcases Bool.or_eq_true_iff.mp h with h | h
        · exact spokeBefore_append _ _ (inv1 h)
        · exact spokeBefore_new es t lvl (of_decide_eq_true h)
      · intro t0 h0
        rw [checkSilence_deadline] at h0
        by_cases h1 : MIN_SPEECH_LEVEL < lvl
        · rw [if_pos h1] at h0
          cases h0
        · rw [if_neg h1] at h0
          by_cases h2 : s.hasSpeechStarted = true ∧ lvl < SILENCE_THRESHOLD ∧
              SILENCE_THRESHOLD < s.lastAudioLevel
          · rw [if_pos h2] at h0
            by_cases h3 : s.deadline = none
            · rw [if_pos h3] at h0
              injection h0 with h0e
              constructor
              · rw [checkSilence_hasSpeech, h2.1]
                rfl
              · rw [← h0e]
                apply quietWindow_new d es t lvl ?_ h2.2.1
                intro x hx
                exact hlate x hx
            · rw [if_neg h3] at h0
              have hold := inv2 t0 h0
              constructor
              · rw [checkSilence_hasSpeech, hold.1]
                rfl
              · exact quietWindow_append_sample_low d t0 es t lvl h2.2.1 hold.2
          · rw [if_neg h2] at h0
            by_cases h4 : s.hasSpeechStarted = true ∧ SILENCE_THRESHOLD ≤ lvl
            · rw [if_pos h4] at h0
              cases h0
            · rw [if_neg h4] at h0
              have hold := inv2 t0 h0
              have hlow : lvl < SILENCE_THRESHOLD := by
                by_contra hge
                exact h4 ⟨hold.1, not_lt.mp hge⟩
              constructor
              · rw [checkSilence_hasSpeech, hold.1]
                rfl
              · exact quietWindow_append_sample_low d t0 es t lvl hlow hold.2
      · intro h
        rw [checkSilence_stopped, hstopF] at h
        cases h
      · intro h
        rw [checkSilence_stopped, hstopF] at h
        cases h

/-- The invariant holds for every strictly time-monotone trace. -/
theorem silInv_run (d : ℤ) : ∀ es, timesIncreasing es = true →
    SilInv d es (runSil d es) := by
  intro es
  induction es using List.reverseRecOn with
  | nil => exact fun _ => silInv_nil d
  | append_singleton es e ih =>
    intro h
    obtain ⟨h1, h2⟩ := timesIncreasing_append es e h
    have hrun : runSil d (es ++ [e]) = silStep d (runSil d es) e := by
      rw [runSil, List.foldl_append]
      rfl
    rw [hrun]
    exact silInv_step d es (runSil d es) e (ih h1) h2

/-- Claim C2: during a recording, speech is considered started exactly
when the level exceeds 0.1; after speech has started the auto-stop
timeout is armed (for `autoStopSilence` ms) only when the level falls
below 0.05 from a previous level above 0.05, and is cleared whenever
the level is at least 0.05 again; consequently, an auto-stop of a
strictly time-monotone recording trace can only happen after some
sample exceeded 0.1 and only at a timer event whose preceding
`autoStopSilence`-window contains no sample at or above 0.05. -/
theorem micButton_silence_auto_stop (d t : ℤ) (lvl : ℚ) (s : SilState)
    (es : List SilEvent)
    (hmono : timesIncreasing es = true)
    (hstop : (runSil d es).stopped = true) :
    ((s.hasSpeechStarted = false →
        ((checkSilence d t lvl s).hasSpeechStarted = true ↔ MIN_SPEECH_LEVEL < lvl)) ∧
     (s.deadline = none → (checkSilence d t lvl s).deadline ≠ none →
        s.hasSpeechStarted = true ∧ lvl < SILENCE_THRESHOLD ∧
          SILENCE_THRESHOLD < s.lastAudioLevel ∧
          (checkSilence d t lvl s).deadline = some (t + d)) ∧
     (s.hasSpeechStarted = true → SILENCE_THRESHOLD ≤ lvl →
        (checkSilence d t lvl s).deadline = none)) ∧
    (SpokeBefore es ∧ ∃ t0, SilEvent.timerFire t0 ∈ es ∧ QuietWindow d t0 es) := by
  constructor
  · refine ⟨?_, ?_, ?_⟩
    · intro h0
      rw [checkSilence_hasSpeech, h0]
      simp
    · intro h0 hne
      rw [checkSilence_deadline] at hne ⊢
      by_cases h1 : MIN_SPEECH_LEVEL < lvl
      · rw [if_pos h1] at hne
        exact absurd rfl hne
      · rw [if_neg h1] at hne ⊢
        by_cases h2 : s.hasSpeechStarted = true ∧ lvl < SILENCE_THRESHOLD ∧
            SILENCE_THRESHOLD < s.lastAudioLevel
        · rw [if_pos h2] at hne ⊢
          rw [if_pos h0] at hne ⊢
          exact ⟨h2.1, h2.2.1, h2.2.2, rfl⟩
        · rw [if_neg h2] at hne ⊢
          by_cases h4 : s.hasSpeechStarted = true ∧ SILENCE_THRESHOLD ≤ lvl
          · rw [if_pos h4] at hne
            exact absurd rfl hne
          · rw [if_neg h4] at hne
            exact absurd h0 hne
    · intro hsp hge
      rw [checkSilence_deadline]
      by_cases h1 : MIN_SPEECH_LEVEL < lvl
      · rw [if_pos h1]
      · rw [if_neg h1]
        have hnarm : ¬(s.hasSpeechStarted = true ∧ lvl < SILENCE_THRESHOLD ∧
            SILENCE_THRESHOLD < s.lastAudioLevel) := by
          rintro ⟨_, hlt, _⟩
          exact absurd hge (not_le.mpr hlt)
        rw [if_neg hnarm, if_pos ⟨hsp, hge⟩]
  · exact (silInv_run d es hmono).2.2.1 hstop

/-- Witness for C2 at the concrete trace: speech at 0.2, quiet at
0.01, auto-stop firing 2000 ms after the quiet sample. -/
theorem micButton_silence_auto_stop_witness :
    ((silInit.hasSpeechStarted = false →
        ((checkSilence 2000 0 (mkRat 2 10) silInit).hasSpeechStarted = true ↔
          MIN_SPEECH_LEVEL < mkRat 2 10)) ∧
     (silInit.deadline = none →
        (checkSilence 2000 0 (mkRat 2 10) silInit).deadline ≠ none →
        silInit.hasSpeechStarted = true ∧ mkRat 2 10 < SILENCE_THRESHOLD ∧
          SILENCE_THRESHOLD < silInit.lastAudioLevel ∧
          (checkSilence 2000 0 (mkRat 2 10) silInit).deadline = some (0 + 2000)) ∧
     (silInit.hasSpeechStarted = true → SILENCE_THRESHOLD ≤ mkRat 2 10 →
        (checkSilence 2000 0 (mkRat 2 10) silInit).deadline = none)) ∧
    (SpokeBefore demoSilTrace ∧
      ∃ t0, SilEvent.timerFire t0 ∈ demoSilTrace ∧ QuietWindow 2000 t0 demoSilTrace) :=
  micButton_silence_auto_stop 2000 0 (mkRat 2 10) silInit demoSilTrace
    (by decide) (by decide)
